import Mathlib

/-! Verification of the agent-grid coordinator core against its design
specification.  The Python sources under `src/agent_grid` are shallowly
embedded: pure decision logic becomes Lean functions, database tables become
lists of row structures, the partial unique index of the `executions` table
becomes a guard on the insert/update primitives, and Python exceptions become
an explicit `Except` error monad.
-/

namespace AgentGrid

/-- A minimal JSON value model for the payloads the coordinator parses with
`json.loads`.  Numbers are integers (the coordinator only reads issue numbers
and counters from payloads). -/
inductive Json where
  | null
  | bool (b : Bool)
  | num (n : Int)
  | str (s : String)
  | arr (items : List Json)
  | obj (fields : List (String × Json))

/-- Python exception classes that the embedded code can raise or catch. -/
inductive PyErr where
  | jsonDecodeError
  | keyError
  | indexError
  | typeError
  | attributeError
  deriving Repr, DecidableEq

/-- Python truthiness (`bool(x)`) on JSON values. -/
def Json.truthy : Json → Bool
  | .null => false
  | .bool b => b
  | .num n => n != 0
  | .str s => !s.isEmpty
  | .arr items => !items.isEmpty
  | .obj fields => !fields.isEmpty

/-- First binding of key `k` in an object's field list. -/
def Json.lookupField : List (String × Json) → String → Option Json
  | [], _ => none
  | (k', v) :: rest, k => if k' = k then some v else Json.lookupField rest k

/-- Python `d.get(k, default)`: works on dicts, raises `AttributeError`
otherwise. -/
def Json.pyGet (j : Json) (k : String) (default : Json) : Except PyErr Json :=
  match j with
  | .obj fields =>
    match Json.lookupField fields k with
    | some v => .ok v
    | none => .ok default
  | _ => .error .attributeError

/-- Python `d[k]` with a string key: key lookup on dicts (`KeyError` when
missing), `TypeError` on every other value. -/
def Json.pyIndex (j : Json) (k : String) : Except PyErr Json :=
  match j with
  | .obj fields =>
    match Json.lookupField fields k with
    | some v => .ok v
    | none => .error .keyError
  | _ => .error .typeError

/-- Substring test on strings (Python `sub in s`). -/
def strContains (s sub : String) : Bool :=
  decide (sub.toList <:+: s.toList)

/-- Python `k in j` for a string `k`: key containment on dicts, membership on
lists (a string compares equal only to an equal string), substring on strings,
`TypeError` otherwise. -/
def Json.pyContains (j : Json) (k : String) : Except PyErr Bool :=
  match j with
  | .obj fields => .ok ((Json.lookupField fields k).isSome)
  | .arr items =>
    .ok (items.any (fun item =>
      match item with
      | .str s => s = k
      | _ => false))
  | .str s => .ok (strContains s k)
  | _ => .error .typeError

/-- SQL `COALESCE(a, b)` on nullable values. -/
def sqlCoalesce {α : Type} (a b : Option α) : Option α :=
  match a with
  | some v => some v
  | none => b

/-! Part: Durable store: executions table

From `coordinator/database.py` and the migration
`20260214_000000_add_active_issue_unique_index.py`, which creates the partial
unique index `idx_executions_active_issue` on `(issue_id) WHERE status IN
('pending', 'running')`. -/

/-- Embeds `ExecutionStatus` from `execution_grid/public_api.py`. -/
inductive ExecutionStatus where
  | pending
  | running
  | completed
  | failed
  deriving Repr, DecidableEq

/-- A status counts against the partial unique index when it is pending or
running. -/
def ExecutionStatus.isActive : ExecutionStatus → Bool
  | .pending => true
  | .running => true
  | .completed => false
  | .failed => false

/-- Embeds `AgentExecution` from `execution_grid/public_api.py` (UUIDs as naturals,
timestamps as naturals). -/
structure AgentExecution where
  id : Nat
  repo_url : String
  status : ExecutionStatus
  prompt : Option String
  result : Option String
  started_at : Option Nat
  completed_at : Option Nat
  created_at : Nat
  deriving Repr, DecidableEq

/-- A row of the `executions` table: an `AgentExecution` extended with the
`issue_id` column the coordinator stores alongside it. -/
structure ExecutionRow where
  id : Nat
  issue_id : String
  repo_url : String
  status : ExecutionStatus
  prompt : Option String
  result : Option String
  started_at : Option Nat
  completed_at : Option Nat
  created_at : Nat
  deriving Repr, DecidableEq

/-- The executions table. -/
structure DB where
  executions : List ExecutionRow
  deriving Repr, DecidableEq

/-- The row inserted by `create_execution` / `try_claim_issue` for an
execution and its issue id. -/
def rowOfExecution (e : AgentExecution) (issue_id : String) : ExecutionRow :=
  { id := e.id
    issue_id := issue_id
    repo_url := e.repo_url
    status := e.status
    prompt := e.prompt
    result := e.result
    started_at := e.started_at
    completed_at := e.completed_at
    created_at := e.created_at }

/-- Whether some pending/running row exists for `issue_id`
(the `WHERE NOT EXISTS` subquery of `try_claim_issue`). -/
def activeExists (db : DB) (issue_id : String) : Bool :=
  db.executions.any (fun r => r.issue_id = issue_id ∧ r.status.isActive = true)

/-- Number of pending/running rows for `issue_id`. -/
def activeCount (db : DB) (issue_id : String) : Nat :=
  (db.executions.filter (fun r => r.issue_id = issue_id ∧ r.status.isActive = true)).length

/-- Invariant I1: for every issue id at most one pending/running row. -/
def atMostOneActive (db : DB) : Prop :=
  ∀ issue_id : String, activeCount db issue_id ≤ 1

/-- Postgres errors surfaced by the embedded store. -/
inductive DbError where
  | uniqueViolation
  deriving Repr, DecidableEq

/-- Row-list well-formedness enforced by `idx_executions_active_issue`: no two
rows that are both active share an issue id. -/
def noDupActive : List ExecutionRow → Bool
  | [] => true
  | r :: rest =>
    (!(r.status.isActive &&
        rest.any (fun s => s.issue_id = r.issue_id ∧ s.status.isActive = true))) &&
    noDupActive rest

/-- INSERT into `executions`, guarded by the partial unique index: inserting
an active row fails with a unique violation when an active row for the same
issue already exists. -/
def insertExecutionRow (db : DB) (row : ExecutionRow) : Except DbError DB :=
  if row.status.isActive && activeExists db row.issue_id then
    .error .uniqueViolation
  else
    .ok ⟨db.executions ++ [row]⟩

/-- Embeds `Database.try_claim_issue`: one statement `INSERT … SELECT … WHERE NOT
EXISTS (active execution for issue_id) RETURNING id`, with
`asyncpg.UniqueViolationError` caught and turned into `False`.

The `NOT EXISTS` subquery is evaluated against the caller's `snapshot` while
the partial unique index is checked against the `current` committed state;
a sequential call passes the same state for both, a racing call sees a stale
snapshot. -/
def tryClaimIssue (snapshot current : DB) (e : AgentExecution) (issue_id : String) :
    Bool × DB :=
  if activeExists snapshot issue_id then
    (false, current)
  else
    match insertExecutionRow current (rowOfExecution e issue_id) with
    | .ok db' => (true, db')
    | .error .uniqueViolation => (false, current)

/-- Embeds `Database.update_execution`: UPDATE of the mutable columns keyed by id,
guarded by the partial unique index (an update that would make two active
rows share an issue id fails). -/
def updateExecution (db : DB) (e : AgentExecution) : Except DbError DB :=
  let rows := db.executions.map (fun r =>
    if r.id = e.id then
      { r with
          status := e.status
          prompt := e.prompt
          result := e.result
          started_at := e.started_at
          completed_at := e.completed_at }
    else r)
  if noDupActive rows then .ok ⟨rows⟩ else .error .uniqueViolation

/-- One store transition: an issue claim (with an arbitrary, possibly stale
snapshot, covering concurrent interleavings), a direct `create_execution`
insert, or an `update_execution`. Failed inserts/updates leave the state
unchanged, so only successes appear as steps. -/
inductive Step : DB → DB → Prop where
  | claim (db snapshot : DB) (e : AgentExecution) (issue_id : String) :
      Step db (tryClaimIssue snapshot db e issue_id).2
  | create (db : DB) (e : AgentExecution) (issue_id : String) (db' : DB) :
      insertExecutionRow db (rowOfExecution e issue_id) = .ok db' → Step db db'
  | update (db : DB) (e : AgentExecution) (db' : DB) :
      updateExecution db e = .ok db' → Step db db'

/-- Store states reachable from the empty (freshly migrated) database. -/
inductive Reachable : DB → Prop where
  | init : Reachable ⟨[]⟩
  | step {db db' : DB} : Reachable db → Step db db' → Reachable db'

theorem activeCount_cons (r : ExecutionRow) (rest : List ExecutionRow) (issue_id : String) :
    activeCount ⟨r :: rest⟩ issue_id =
      (if r.issue_id = issue_id ∧ r.status.isActive = true then 1 else 0) +
        activeCount ⟨rest⟩ issue_id := by
  by_cases h : r.issue_id = issue_id ∧ r.status.isActive = true
  · simp [activeCount, List.filter_cons, h, Nat.add_comm]
  · simp [activeCount, List.filter_cons, h]

theorem activeExists_iff_activeCount_pos (db : DB) (issue_id : String) :
    activeExists db issue_id = true ↔ 0 < activeCount db issue_id := by
  unfold activeExists activeCount
  constructor
  · intro h
    obtain ⟨r, hr, hp⟩ := List.any_eq_true.1 h
    have hmem : r ∈ db.executions.filter
        (fun r => r.issue_id = issue_id ∧ r.status.isActive = true) :=
      List.mem_filter.2 ⟨hr, hp⟩
    exact List.length_pos.2 (List.ne_nil_of_mem hmem)
  · intro h
    obtain ⟨r, hr⟩ := List.exists_mem_of_ne_nil _ (List.length_pos.1 h)
    obtain ⟨hmem, hp⟩ := List.mem_filter.1 hr
    exact List.any_eq_true.2 ⟨r, hmem, hp⟩

theorem insert_preserves_invariant {db db' : DB} {row : ExecutionRow}
    (hdb : atMostOneActive db)
    (h : insertExecutionRow db row = .ok db') :
    atMostOneActive db' := by
  unfold insertExecutionRow at h
  by_cases hguard : row.status.isActive && activeExists db row.issue_id
  · simp [hguard] at h
  · simp only [hguard, Bool.false_eq_true, if_false, Except.ok.injEq] at h
    subst h
    intro issue_id
    have hsplit : activeCount ⟨db.executions ++ [row]⟩ issue_id
        = activeCount db issue_id + activeCount ⟨[row]⟩ issue_id := by
      simp [activeCount, List.filter_append]
    have hrow : activeCount ⟨[row]⟩ issue_id =
        if row.issue_id = issue_id ∧ row.status.isActive = true then 1 else 0 := by
      have := activeCount_cons row [] issue_id
      simpa [activeCount, List.filter] using this
    rw [hsplit, hrow]
    by_cases hcase : row.issue_id = issue_id ∧ row.status.isActive = true
    · have hnoex : activeExists db row.issue_id = false := by
        cases hex : activeExists db row.issue_id
        · rfl
        · exact absurd (by simp [hcase.2, hex]) hguard
      have hzero : activeCount db issue_id = 0 := by
        rw [← hcase.1]
        by_contra hpos
        have := (activeExists_iff_activeCount_pos db row.issue_id).2
          (Nat.pos_of_ne_zero hpos)
        rw [hnoex] at this
        exact Bool.false_ne_true this
      simp [hcase, hzero]
    · have := hdb issue_id
      simp only [hcase, if_false]
      omega

theorem noDupActive_iff (l : List ExecutionRow) :
    noDupActive l = true ↔ atMostOneActive ⟨l⟩ := by
  induction l with
  | nil =>
    simp only [noDupActive, true_iff]
    intro issue_id
    simp [activeCount, List.filter]
  | cons r rest ih =>
    simp only [noDupActive, Bool.and_eq_true, ih]
    constructor
    · rintro ⟨hhead, htail⟩ issue_id
      rw [activeCount_cons]
      by_cases hfilt : r.issue_id = issue_id ∧ r.status.isActive = true
      · have hany : rest.any
            (fun s => s.issue_id = r.issue_id ∧ s.status.isActive = true) = false := by
          cases hex : rest.any (fun s => s.issue_id = r.issue_id ∧ s.status.isActive = true)
          · rfl
          · exfalso
            rw [hfilt.2, hex] at hhead
            simp at hhead
        have hzero : activeCount ⟨rest⟩ issue_id = 0 := by
          rw [← hfilt.1]
          by_contra hpos
          have hex := (activeExists_iff_activeCount_pos ⟨rest⟩ r.issue_id).2
            (Nat.pos_of_ne_zero hpos)
          unfold activeExists at hex
          rw [hany] at hex
          exact Bool.false_ne_true hex
        simp [hfilt, hzero]
      · have := htail issue_id
        simp only [hfilt, if_false]
        omega
    · intro h
      constructor
      · by_cases hact : r.status.isActive = true
        · rw [hact, Bool.true_and, Bool.not_eq_true']
          cases hany : rest.any
              (fun s => s.issue_id = r.issue_id ∧ s.status.isActive = true)
          · rfl
          · exfalso
            have hex : activeExists ⟨rest⟩ r.issue_id = true := hany
            have hpos := (activeExists_iff_activeCount_pos ⟨rest⟩ r.issue_id).1 hex
            have hcnt := h r.issue_id
            rw [activeCount_cons] at hcnt
            simp [hact] at hcnt
            omega
        · simp [hact]
      · intro issue_id
        have := h issue_id
        rw [activeCount_cons] at this
        by_cases hfilt : r.issue_id = issue_id ∧ r.status.isActive = true
        · simp only [hfilt, if_true] at this
          omega
        · simpa [hfilt] using this

theorem step_preserves_invariant {db db' : DB} (hdb : atMostOneActive db)
    (h : Step db db') : atMostOneActive db' := by
  cases h with
  | claim snapshot e issue_id =>
    unfold tryClaimIssue
    by_cases hsnap : activeExists snapshot issue_id
    · simpa [hsnap] using hdb
    · simp only [hsnap, Bool.false_eq_true, if_false]
      cases hins : insertExecutionRow db (rowOfExecution e issue_id) with
      | ok dbNew =>
        simp only [hins]
        exact insert_preserves_invariant hdb hins
      | error err =>
        cases err
        simp only [hins]
        exact hdb
  | create e issue_id db2 hins =>
    exact insert_preserves_invariant hdb hins
  | update e db2 hupd =>
    unfold updateExecution at hupd
    simp only at hupd
    split at hupd
    · rename_i hguard
      cases hupd
      exact (noDupActive_iff _).1 hguard
    · cases hupd

/-- Claim C1. (a) Every store state reachable from the migrated empty database
satisfies invariant I1: for every issue id, at most one execution row is
pending or running.  (b) A sequential `try_claim_issue` inserts a new pending
execution exactly when no active execution exists for the issue id, returning
whether this caller won, and leaves the store unchanged when it loses.  (c) A
racing claim whose `NOT EXISTS` snapshot was stale — the partial unique index
catches the concurrent duplicate — returns `false` instead of raising, leaving
the store unchanged. -/
theorem try_claim_issue_at_most_one_active :
    (∀ db : DB, Reachable db → atMostOneActive db) ∧
    (∀ (db : DB) (e : AgentExecution) (issue_id : String),
      e.status = .pending →
        (activeExists db issue_id = false →
          tryClaimIssue db db e issue_id =
            (true, ⟨db.executions ++ [rowOfExecution e issue_id]⟩)) ∧
        (activeExists db issue_id = true →
          tryClaimIssue db db e issue_id = (false, db))) ∧
    (∀ (snapshot db : DB) (e : AgentExecution) (issue_id : String),
      e.status = .pending →
      activeExists snapshot issue_id = false →
      activeExists db issue_id = true →
      tryClaimIssue snapshot db e issue_id = (false, db)) := by
  refine ⟨?_, ?_, ?_⟩
  · intro db h
    induction h with
    | init => intro issue_id; simp [activeCount, List.filter]
    | step _ hstep ih => exact step_preserves_invariant ih hstep
  · intro db e issue_id hpend
    constructor
    · intro hno
      have hrow : (rowOfExecution e issue_id).issue_id = issue_id := rfl
      simp [tryClaimIssue, hno, insertExecutionRow, hrow]
    · intro hyes
      simp [tryClaimIssue, hyes]
  · intro snapshot db e issue_id hpend hsnap hcur
    have hact : (rowOfExecution e issue_id).status.isActive = true := by
      simp [rowOfExecution, hpend, ExecutionStatus.isActive]
    have hrow : (rowOfExecution e issue_id).issue_id = issue_id := rfl
    simp [tryClaimIssue, hsnap, insertExecutionRow, hact, hrow, hcur]

/-- Witness for C1 at concrete inputs: an empty store accepts the first claim
for issue `"42"`, the resulting store rejects a second sequential claim and a
stale-snapshot concurrent claim, and the resulting store is reachable and
satisfies I1. -/
theorem try_claim_issue_at_most_one_active_witness :
    tryClaimIssue ⟨[]⟩ ⟨[]⟩ ⟨1, "https://github.com/o/r.git", .pending, some "p", none, some 5, none, 5⟩ "42" =
      (true, ⟨[⟨1, "42", "https://github.com/o/r.git", .pending, some "p", none, some 5, none, 5⟩]⟩) ∧
    tryClaimIssue ⟨[⟨1, "42", "https://github.com/o/r.git", .pending, some "p", none, some 5, none, 5⟩]⟩
        ⟨[⟨1, "42", "https://github.com/o/r.git", .pending, some "p", none, some 5, none, 5⟩]⟩
        ⟨2, "https://github.com/o/r.git", .pending, some "q", none, some 6, none, 6⟩ "42" =
      (false, ⟨[⟨1, "42", "https://github.com/o/r.git", .pending, some "p", none, some 5, none, 5⟩]⟩) ∧
    tryClaimIssue ⟨[]⟩ ⟨[⟨1, "42", "https://github.com/o/r.git", .pending, some "p", none, some 5, none, 5⟩]⟩
        ⟨2, "https://github.com/o/r.git", .pending, some "q", none, some 6, none, 6⟩ "42" =
      (false, ⟨[⟨1, "42", "https://github.com/o/r.git", .pending, some "p", none, some 5, none, 5⟩]⟩) ∧
    atMostOneActive ⟨[⟨1, "42", "https://github.com/o/r.git", .pending, some "p", none, some 5, none, 5⟩]⟩ := by
  refine ⟨?_, ?_, ?_, ?_⟩
  · exact (try_claim_issue_at_most_one_active.2.1 ⟨[]⟩
      ⟨1, "https://github.com/o/r.git", .pending, some "p", none, some 5, none, 5⟩ "42" rfl).1
      (by decide)
  · exact (try_claim_issue_at_most_one_active.2.1
      ⟨[⟨1, "42", "https://github.com/o/r.git", .pending, some "p", none, some 5, none, 5⟩]⟩
      ⟨2, "https://github.com/o/r.git", .pending, some "q", none, some 6, none, 6⟩ "42" rfl).2
      (by decide)
  · exact try_claim_issue_at_most_one_active.2.2 ⟨[]⟩
      ⟨[⟨1, "42", "https://github.com/o/r.git", .pending, some "p", none, some 5, none, 5⟩]⟩
      ⟨2, "https://github.com/o/r.git", .pending, some "q", none, some 6, none, 6⟩ "42" rfl
      (by decide) (by decide)
  · exact try_claim_issue_at_most_one_active.1 _
      (Reachable.step Reachable.init
        (by
          have h := Step.claim ⟨[]⟩ ⟨[]⟩
            ⟨1, "https://github.com/o/r.git", .pending, some "p", none, some 5, none, 5⟩ "42"
          simpa [tryClaimIssue, activeExists, insertExecutionRow, rowOfExecution] using h))

/-! Part: Budget manager

From `coordinator/budget_manager.py` (`BudgetManager.can_launch_agent`) and
`coordinator/database.py` (`Database.list_executions`, whose Python defaults
are `limit=100, offset=0`). -/

/-- The SQL filter of `list_executions`: a `status` filter when the argument
is truthy, an `issue_id` filter when the argument is truthy (Python treats an
empty string as falsy and skips the filter). -/
def execFilterPred (status : Option ExecutionStatus) (issue_id : Option String)
    (r : ExecutionRow) : Bool :=
  (match status with
   | some s => decide (r.status = s)
   | none => true) &&
  (match issue_id with
   | none => true
   | some i => if i.isEmpty then true else decide (r.issue_id = i))

/-- Embeds `Database.list_executions`: filter, `ORDER BY created_at DESC`,
`LIMIT limit OFFSET offset`. -/
def listExecutions (db : DB) (status : Option ExecutionStatus) (issue_id : Option String)
    (limit offset : Nat) : List ExecutionRow :=
  ((((db.executions.filter (execFilterPred status issue_id)).insertionSort
      (fun a b => b.created_at ≤ a.created_at)).drop offset).take limit)

/-- Embeds `BudgetManager.can_launch_agent`: compares the number of rows returned by
`list_executions(status=RUNNING)` against `max_concurrent`. -/
def canLaunchAgent (db : DB) (max_concurrent : Nat) : Bool × Option String :=
  let running := listExecutions db (some .running) none 100 0
  if max_concurrent ≤ running.length then
    (false, some ("Max concurrent executions (" ++ toString max_concurrent ++ ") reached"))
  else
    (true, none)

/-- Number of pending-or-running rows in the store (what spec invariant I4
asks the budget gate to count). -/
def countActive (db : DB) : Nat :=
  (db.executions.filter (fun r => r.status.isActive = true)).length

/-- Claim C4 counterexample. A store holding one pending execution with
`max_concurrent_executions = 1`: the pre-claim budget check still allows a
launch even though the count of pending+running executions is 1, not
strictly below 1 — pending executions are not counted. -/
theorem can_launch_agent_pending_not_counted_cex :
    (canLaunchAgent ⟨[⟨1, "42", "u", .pending, none, none, none, none, 0⟩]⟩ 1).1 = true ∧
    countActive ⟨[⟨1, "42", "u", .pending, none, none, none, none, 0⟩]⟩ = 1 := by
  constructor
  · rfl
  · rfl

/-- Claim C4 (amended). `BudgetManager.can_launch_agent` allows a launch exactly
when the number of *running* executions (as reported by `list_executions`,
capped at its 100-row page) is strictly below `max_concurrent_executions`;
pending executions do not count against the limit (appending a pending row
never changes the decision). -/
theorem can_launch_agent_counts_running_only :
    (∀ (db : DB) (max_concurrent : Nat),
      (canLaunchAgent db max_concurrent).1 = true ↔
        min 100 ((db.executions.filter
          (fun r => r.status = ExecutionStatus.running)).length) < max_concurrent) ∧
    (∀ (db : DB) (max_concurrent : Nat) (row : ExecutionRow),
      row.status = .pending →
      (canLaunchAgent ⟨db.executions ++ [row]⟩ max_concurrent).1 =
        (canLaunchAgent db max_concurrent).1) := by
  have hpred : ∀ r : ExecutionRow,
      execFilterPred (some .running) none r = decide (r.status = ExecutionStatus.running) := by
    intro r
    simp [execFilterPred]
  have hlen : ∀ db : DB,
      (listExecutions db (some .running) none 100 0).length =
        min 100 ((db.executions.filter (fun r => r.status = ExecutionStatus.running)).length) := by
    intro db
    unfold listExecutions
    rw [List.filter_congr (fun r _ => hpred r), List.drop_zero, List.length_take]
    congr 1
    exact (List.perm_insertionSort (fun a b : ExecutionRow => b.created_at ≤ a.created_at)
      (db.executions.filter (fun r => decide (r.status = ExecutionStatus.running)))).length_eq
  constructor
  · intro db max_concurrent
    unfold canLaunchAgent
    simp only [hlen db]
    by_cases h : max_concurrent ≤
        min 100 ((db.executions.filter (fun r => r.status = ExecutionStatus.running)).length)
    · simp [h]
      omega
    · simp [h]
      omega
  · intro db max_concurrent row hrow
    unfold canLaunchAgent listExecutions
    have : (db.executions ++ [row]).filter (execFilterPred (some .running) none) =
        db.executions.filter (execFilterPred (some .running) none) := by
      rw [List.filter_append]
      have : execFilterPred (some .running) none row = false := by
        simp [execFilterPred, hrow]
      simp [List.filter, this]
    simp only [this]

/-- Witness for the amended C4 at concrete inputs: with one running execution
and `max_concurrent_executions = 1`, the gate refuses; appending a pending row
to the empty store does not change the gate's answer. -/
theorem can_launch_agent_counts_running_only_witness :
    ¬ ((canLaunchAgent ⟨[⟨1, "42", "u", .running, none, none, none, none, 0⟩]⟩ 1).1 = true) ∧
    (canLaunchAgent ⟨([] : List ExecutionRow) ++ [⟨1, "42", "u", .pending, none, none, none, none, 0⟩]⟩ 1).1 =
      (canLaunchAgent ⟨[]⟩ 1).1 := by
  constructor
  · intro h
    have := (can_launch_agent_counts_running_only.1
      ⟨[⟨1, "42", "u", .running, none, none, none, none, 0⟩]⟩ 1).1 h
    simp [List.filter] at this
  · exact can_launch_agent_counts_running_only.2 ⟨[]⟩ 1
      ⟨1, "42", "u", .pending, none, none, none, none, 0⟩ rfl

/-! Part: Issue state upsert

From `coordinator/database.py` (`Database.upsert_issue_state`): the
`ON CONFLICT … DO UPDATE` lists `COALESCE` for `classification`,
`parent_issue`, `sub_issues` and `metadata`, but assigns `retry_count = $6`
unconditionally (the Python default for the argument is `0`). -/

/-- A row of the `issue_state` table. -/
structure IssueStateRow where
  issue_number : Int
  repo : String
  classification : Option String
  parent_issue : Option Int
  sub_issues : Option (List Int)
  retry_count : Int
  metadata : Option Json
  last_checked_at : Nat
  updated_at : Nat

/-- Embeds `Database.upsert_issue_state`. -/
def upsertIssueState (tbl : List IssueStateRow) (now : Nat) (issue_number : Int)
    (repo : String) (classification : Option String) (parent_issue : Option Int)
    (sub_issues : Option (List Int)) (retry_count : Int) (metadata : Option Json) :
    List IssueStateRow :=
  if tbl.any (fun r => r.issue_number = issue_number ∧ r.repo = repo) then
    tbl.map (fun r =>
      if r.issue_number = issue_number ∧ r.repo = repo then
        { r with
            classification := sqlCoalesce classification r.classification
            parent_issue := sqlCoalesce parent_issue r.parent_issue
            sub_issues := sqlCoalesce sub_issues r.sub_issues
            retry_count := retry_count
            metadata := sqlCoalesce metadata r.metadata
            last_checked_at := now
            updated_at := now }
      else r)
  else
    tbl ++ [⟨issue_number, repo, classification, parent_issue, sub_issues,
             retry_count, metadata, now, now⟩]

/-- Claim C5 counterexample. A metadata-only upsert (exactly the call shape of
the `CHECK_RUN_FAILED` handler, which passes only `metadata`) against a row
with `classification = SIMPLE` and `retry_count = 2`: the classification is
preserved, but `retry_count` is overwritten with the Python default `0`
instead of staying `2` as the claim states. -/
theorem upsert_issue_state_resets_retry_count_cex :
    ((upsertIssueState
        [⟨7, "o/r", some "SIMPLE", none, none, 2, none, 0, 0⟩]
        1 7 "o/r" none none none 0
        (some (.obj [("last_ci_check_sha", .str "abc"), ("ci_fix_count", .num 1)]))).map
      (fun r => (r.classification, r.retry_count))) = [(some "SIMPLE", 0)] ∧
    ([(⟨7, "o/r", some "SIMPLE", none, none, 2, none, 0, 0⟩ : IssueStateRow)].map
      (fun r => r.retry_count)) = [2] ∧
    (0 : Int) ≠ 2 := by
  exact ⟨rfl, rfl, by decide⟩

/-- Claim C5 (amended). `upsert_issue_state` has merge semantics for
`classification`, `parent_issue`, `sub_issues` and `metadata`: a NULL/omitted
argument preserves the prior value of that column.  `retry_count`, however, is
always overwritten with the passed argument (default 0), so a metadata-only
upsert keeps the prior classification but resets `retry_count` to 0. -/
theorem upsert_issue_state_merge :
    ∀ (tbl : List IssueStateRow) (now : Nat) (n : Int) (repo : String)
      (classification : Option String) (parent : Option Int)
      (subs : Option (List Int)) (retry : Int) (metadata : Option Json)
      (r : IssueStateRow),
      r ∈ tbl → r.issue_number = n → r.repo = repo →
      ∃ r' ∈ upsertIssueState tbl now n repo classification parent subs retry metadata,
        r'.classification = sqlCoalesce classification r.classification ∧
        r'.parent_issue = sqlCoalesce parent r.parent_issue ∧
        r'.sub_issues = sqlCoalesce subs r.sub_issues ∧
        r'.metadata = sqlCoalesce metadata r.metadata ∧
        r'.retry_count = retry := by
  intro tbl now n repo classification parent subs retry metadata r hmem hn hrepo
  have hany : tbl.any (fun r => r.issue_number = n ∧ r.repo = repo) = true :=
    List.any_eq_true.2 ⟨r, hmem, by simp [hn, hrepo]⟩
  unfold upsertIssueState
  simp only [hany, if_true]
  refine ⟨_, List.mem_map_of_mem _ hmem, ?_⟩
  simp [hn, hrepo]

/-- Witness for the amended C5 at a concrete row: classification/metadata
merge and retry reset observed on the counterexample row. -/
theorem upsert_issue_state_merge_witness :
    ∃ r' ∈ upsertIssueState
        [⟨7, "o/r", some "SIMPLE", none, none, 2, none, 0, 0⟩]
        1 7 "o/r" none none none 0 none,
      r'.classification = sqlCoalesce none (some "SIMPLE") ∧
      r'.parent_issue = sqlCoalesce none none ∧
      r'.sub_issues = sqlCoalesce none none ∧
      r'.metadata = sqlCoalesce none none ∧
      r'.retry_count = 0 := by
  exact upsert_issue_state_merge
    [⟨7, "o/r", some "SIMPLE", none, none, 2, none, 0, 0⟩]
    1 7 "o/r" none none none 0 none
    ⟨7, "o/r", some "SIMPLE", none, none, 2, none, 0, 0⟩
    (List.mem_singleton.2 rfl) rfl rfl

/-! Part: Label manager

From `issue_tracker/label_manager.py`: the managed label set `AG_LABELS` and
`LabelManager.transition_to`, which fetches the issue's labels, removes every
label that is *in `AG_LABELS`* and differs from the target, then adds the
target if it was not among the current managed labels.  The tracker's
add/remove operations are idempotent set operations (both swallow HTTP
errors), so an issue's labels are modelled as a `Finset String`. -/

/-- Embeds `AG_LABELS` from `label_manager.py`. -/
def AG_LABELS : Finset String :=
  {"ag/todo", "ag/in-progress", "ag/blocked", "ag/waiting", "ag/planning",
   "ag/review-pending", "ag/done", "ag/failed", "ag/skipped", "ag/sub-issue",
   "ag/epic"}

/-- Embeds `LabelManager.transition_to` acting on the issue's label set. -/
def transitionTo (labels : Finset String) (new_label : String) : Finset String :=
  let currentAg := labels.filter (fun l => l ∈ AG_LABELS)
  let afterRemove := labels.filter (fun l => ¬(l ∈ AG_LABELS ∧ l ≠ new_label))
  if new_label ∈ currentAg then afterRemove else insert new_label afterRemove

/-- Python `s.startswith(pre)`. -/
def strStartsWith (s pre : String) : Bool :=
  pre.toList.isPrefixOf s.toList

theorem mem_transitionTo (labels : Finset String) (L l : String) :
    l ∈ transitionTo labels L ↔
      ((l ∈ labels ∧ (l ∉ AG_LABELS ∨ l = L)) ∨ l = L) := by
  unfold transitionTo
  by_cases hL : L ∈ labels.filter (fun x => x ∈ AG_LABELS)
  · have hmem := Finset.mem_filter.1 hL
    simp only [hL, if_true, Finset.mem_filter]
    constructor
    · rintro ⟨h1, h2⟩
      exact Or.inl ⟨h1, by tauto⟩
    · rintro (⟨h1, h2⟩ | rfl)
      · exact ⟨h1, by tauto⟩
      · exact ⟨hmem.1, by tauto⟩
  · simp only [hL, if_false, Finset.mem_insert, Finset.mem_filter]
    constructor
    · rintro (rfl | ⟨h1, h2⟩)
      · exact Or.inr rfl
      · exact Or.inl ⟨h1, by tauto⟩
    · rintro (⟨h1, h2⟩ | rfl)
      · exact Or.inr ⟨h1, by tauto⟩
      · exact Or.inl rfl

/-- Claim C8 counterexample. An issue carrying the unmanaged but `ag/`-prefixed
label `ag/custom`: `transition_to("ag/done")` applied twice leaves **two**
labels with prefix `ag/` on the issue (`ag/custom` is not in `AG_LABELS`, so
it is never removed), contradicting the claim that exactly one `ag/*` label —
the target — remains whatever `ag/*` labels the issue started with. -/
theorem transition_to_unmanaged_ag_cex :
    transitionTo (transitionTo {"ag/custom"} "ag/done") "ag/done" =
      ({"ag/custom", "ag/done"} : Finset String) ∧
    ((transitionTo (transitionTo {"ag/custom"} "ag/done") "ag/done").filter
      (fun l => strStartsWith l "ag/" = true)).card = 2 := by
  constructor
  · decide
  · decide

/-- Claim C8 (amended). For a target label in the managed set `AG_LABELS`,
`transition_to` leaves exactly one *managed* label on the issue, namely the
target; it is idempotent; and labels outside `AG_LABELS` (including unmanaged
`ag/*`-prefixed ones) are untouched. -/
theorem transition_to_idempotent_managed :
    ∀ (labels : Finset String) (L : String), L ∈ AG_LABELS →
      (transitionTo labels L).filter (fun l => l ∈ AG_LABELS) = {L} ∧
      transitionTo (transitionTo labels L) L = transitionTo labels L ∧
      ∀ l : String, l ∉ AG_LABELS → (l ∈ transitionTo labels L ↔ l ∈ labels) := by
  intro labels L hAG
  have h1 : (transitionTo labels L).filter (fun l => l ∈ AG_LABELS) = {L} := by
    ext l
    simp only [Finset.mem_filter, mem_transitionTo, Finset.mem_singleton]
    constructor
    · rintro ⟨⟨hl, h⟩ | rfl, hAGl⟩
      · tauto
      · rfl
    · rintro rfl
      exact ⟨Or.inr rfl, hAG⟩
  refine ⟨h1, ?_, ?_⟩
  · ext l
    rw [mem_transitionTo (transitionTo labels L) L l]
    constructor
    · rintro (⟨hl, _⟩ | h)
      · exact hl
      · exact (mem_transitionTo labels L l).2 (Or.inr h)
    · intro hl
      refine Or.inl ⟨hl, ?_⟩
      by_cases hmem : l ∈ AG_LABELS
      · right
        have hf : l ∈ (transitionTo labels L).filter (fun l => l ∈ AG_LABELS) :=
          Finset.mem_filter.2 ⟨hl, hmem⟩
        rw [h1] at hf
        exact Finset.mem_singleton.1 hf
      · exact Or.inl hmem
  · intro l hIn
    rw [mem_transitionTo]
    constructor
    · rintro (⟨hl, _⟩ | rfl)
      · exact hl
      · exact absurd hAG hIn
    · intro hl
      exact Or.inl ⟨hl, Or.inl hIn⟩

/-- Witness for the amended C8 at concrete inputs: transitioning an issue
labeled `{ag/todo, bug}` to `ag/in-progress`. -/
theorem transition_to_idempotent_managed_witness :
    (transitionTo {"ag/todo", "bug"} "ag/in-progress").filter
      (fun l => l ∈ AG_LABELS) = {"ag/in-progress"} ∧
    transitionTo (transitionTo {"ag/todo", "bug"} "ag/in-progress") "ag/in-progress" =
      transitionTo {"ag/todo", "bug"} "ag/in-progress" ∧
    ("bug" ∈ transitionTo {"ag/todo", "bug"} "ag/in-progress" ↔
      "bug" ∈ ({"ag/todo", "bug"} : Finset String)) := by
  obtain ⟨h1, h2, h3⟩ := transition_to_idempotent_managed {"ag/todo", "bug"}
    "ag/in-progress" (by decide)
  exact ⟨h1, h2, h3 "bug" (by decide)⟩

/-! Part: Classifier

From `coordinator/classifier.py` (`Classifier.classify`).  The response text
flows only through `json.loads`, so an LLM outcome is abstracted as either an
API error, or a list of content blocks each represented by the parse result of
its stripped text (`none` = `json.JSONDecodeError`). -/

/-- The outcome of the Anthropic API call inside `Classifier.classify`. -/
inductive LlmOutcome where
  | apiError (msg : String)
  | response (content : List (Option Json))

/-- Embeds `Classification` from `classifier.py`; fields keep the raw JSON values the
Python constructor stores.  The constructor normalizes `dependencies` with
`dependencies or []`. -/
structure Classification where
  category : Json
  reason : Json
  blocking_question : Json
  estimated_complexity : Json
  dependencies : Json

/-- The `Classification.__init__` logic (`self.dependencies = dependencies or []`). -/
def mkClassification (category reason blocking_question estimated_complexity dependencies : Json) :
    Classification :=
  ⟨category, reason, blocking_question, estimated_complexity,
   if dependencies.truthy then dependencies else .arr []⟩

/-- A short rendering of the exception interpolated into the SKIP reason
string (`f"Classification error: {e}"`); the exact Python `str(e)` text is
elided. -/
def pyErrMsg : PyErr → String
  | .jsonDecodeError => "JSONDecodeError"
  | .keyError => "KeyError"
  | .indexError => "IndexError"
  | .typeError => "TypeError"
  | .attributeError => "AttributeError"

/-- The body of the `try` block of `Classifier.classify` after a successful
API call: `response.content[0]` (IndexError when empty), `json.loads`
(JSONDecodeError), `data["category"]` (KeyError on a dict without the key,
TypeError on non-dict JSON), then the remaining `data.get(...)` reads. -/
def classifyBody (content : List (Option Json)) : Except PyErr Classification :=
  match content with
  | [] => .error .indexError
  | block :: _ =>
    match block with
    | none => .error .jsonDecodeError
    | some data =>
      match data.pyIndex "category" with
      | .error e => .error e
      | .ok category =>
        match data.pyGet "reason" (.str "") with
        | .error e => .error e
        | .ok reason =>
          match data.pyGet "blocking_question" .null with
          | .error e => .error e
          | .ok blocking_question =>
            match data.pyGet "estimated_complexity" (.num 5) with
            | .error e => .error e
            | .ok estimated_complexity =>
              match data.pyGet "dependencies" (.arr []) with
              | .error e => .error e
              | .ok dependencies =>
                .ok (mkClassification category reason blocking_question
                  estimated_complexity dependencies)

/-- Embeds `Classifier.classify`: the first `except` clause catches
`(json.JSONDecodeError, KeyError, IndexError)` and defaults to SIMPLE with a
parse-error reason; the final `except Exception` (covering API errors and any
other exception, e.g. TypeError) defaults to SKIP. -/
def classify (outcome : LlmOutcome) : Classification :=
  match outcome with
  | .apiError msg =>
    mkClassification (.str "SKIP") (.str ("Classification error: " ++ msg)) .null (.num 5) .null
  | .response content =>
    match classifyBody content with
    | .ok c => c
    | .error .jsonDecodeError =>
      mkClassification (.str "SIMPLE")
        (.str "Classification parse error, defaulting to SIMPLE") .null (.num 5) .null
    | .error .keyError =>
      mkClassification (.str "SIMPLE")
        (.str "Classification parse error, defaulting to SIMPLE") .null (.num 5) .null
    | .error .indexError =>
      mkClassification (.str "SIMPLE")
        (.str "Classification parse error, defaulting to SIMPLE") .null (.num 5) .null
    | .error e =>
      mkClassification (.str "SKIP")
        (.str ("Classification error: " ++ pyErrMsg e)) .null (.num 5) .null

/-- Claim C9 counterexample. The LLM response `"[]"` is parseable JSON that
lacks the `category` field, yet `classify` returns SKIP, not SIMPLE:
`data["category"]` on a list raises `TypeError`, which is not in the
`(json.JSONDecodeError, KeyError, IndexError)` tuple, so the generic
`except Exception` handler runs. -/
theorem classify_non_object_json_cex :
    (classify (.response [some (.arr [])])).category = .str "SKIP" ∧
    (classify (.response [some (.arr [])])).category ≠ .str "SIMPLE" := by
  refine ⟨rfl, ?_⟩
  intro h
  rw [show (classify (.response [some (.arr [])])).category = .str "SKIP" from rfl] at h
  injection h with h'
  exact absurd h' (by decide)

/-- Claim C9 (amended). `Classifier.classify` is total over LLM failures: an API
error yields SKIP; an unparseable response, an empty content list, or a JSON
*object* lacking the `category` field yields SIMPLE with the parse-error
reason; a parseable *non-object* response raises `TypeError` inside the try
block, which falls to the generic handler and yields SKIP.  No exception
propagates (the embedding is a total function into `Classification`). -/
theorem classify_total_defaults :
    (∀ msg : String, (classify (.apiError msg)).category = .str "SKIP") ∧
    (∀ rest : List (Option Json),
      (classify (.response (none :: rest))).category = .str "SIMPLE" ∧
      (classify (.response (none :: rest))).reason =
        .str "Classification parse error, defaulting to SIMPLE") ∧
    ((classify (.response [])).category = .str "SIMPLE") ∧
    (∀ (fields : List (String × Json)) (rest : List (Option Json)),
      Json.lookupField fields "category" = none →
      (classify (.response (some (.obj fields) :: rest))).category = .str "SIMPLE") ∧
    (∀ (j : Json) (rest : List (Option Json)),
      (∀ fields, j ≠ .obj fields) →
      (classify (.response (some j :: rest))).category = .str "SKIP") := by
  refine ⟨fun msg => rfl, fun rest => ⟨rfl, rfl⟩, rfl, ?_, ?_⟩
  · intro fields rest hmiss
    simp [classify, classifyBody, Json.pyIndex, hmiss, mkClassification]
  · intro j rest hobj
    have hidx : j.pyIndex "category" = .error .typeError := by
      cases j with
      | obj fields => exact absurd rfl (hobj fields)
      | null => rfl
      | bool b => rfl
      | num n => rfl
      | str s => rfl
      | arr items => rfl
    simp [classify, classifyBody, hidx, mkClassification]

/-- Witness for the amended C9 at concrete inputs: a dict without `category`
gives SIMPLE, the non-object response `"42"` gives SKIP. -/
theorem classify_total_defaults_witness :
    (classify (.apiError "boom")).category = .str "SKIP" ∧
    (classify (.response [some (.obj [("reason", .str "r")])])).category = .str "SIMPLE" ∧
    (classify (.response [some (.num 42)])).category = .str "SKIP" := by
  refine ⟨classify_total_defaults.1 "boom", ?_, ?_⟩
  · exact classify_total_defaults.2.2.2.1 [("reason", .str "r")] [] rfl
  · exact classify_total_defaults.2.2.2.2 (.num 42) [] (fun fields h => by cases h)

/-! Part: Periodic control loop

From `coordinator/management_loop.py`.  `run_cycle` sequences its phases with
no `try`/`except` inside the method: scan (1), classify-and-act (2), timeout
sweep (3), PR review sweep (4), closed-PR sweep (5), unblocked sweep (6),
dependency sweep (7).  The only handler is in `_loop`, which wraps the whole
`run_cycle()` call in `try … except Exception: logger.exception(…)`.  Each
phase's body is abstracted as an outcome (`ok` or a raised exception); the
embedding records which phases started executing. -/

/-- Embeds `ManagementLoop.run_cycle` restricted to its phase structure: phases run
in order; a phase that raises terminates the method, and the exception
escapes `run_cycle`. -/
def runPhases (outcome : Nat → Except PyErr Unit) : List Nat → List Nat × Option PyErr
  | [] => ([], none)
  | i :: rest =>
    match outcome i with
    | .ok _ =>
      let r := runPhases outcome rest
      (i :: r.1, r.2)
    | .error e => ([i], some e)

/-- One `run_cycle()` invocation over the seven phases: the list of phases
that started executing, and the exception that escaped the method, if any. -/
def runCycle (outcome : Nat → Except PyErr Unit) : List Nat × Option PyErr :=
  runPhases outcome [1, 2, 3, 4, 5, 6, 7]

/-- One iteration of `ManagementLoop._loop`: `run_cycle()` wrapped in
`try … except Exception: logger.exception(…)` — the escaping exception is
swallowed, so the loop always reaches its next sleep. -/
def loopIteration (outcome : Nat → Except PyErr Unit) : List Nat :=
  (runCycle outcome).1

/-- Claim C7 counterexample. When phase 1 (the scan) raises, `run_cycle` stops:
phases 2–7 of the same invocation never execute, contradicting the claim that
the remaining phases still run. -/
theorem run_cycle_phase_abort_cex :
    runCycle (fun n => if n = 1 then .error .typeError else .ok ()) =
      ([1], some .typeError) ∧
    (2 : Nat) ∉ (runCycle (fun n => if n = 1 then .error .typeError else .ok ())).1 := by
  refine ⟨rfl, ?_⟩
  rw [show (runCycle (fun n => if n = 1 then .error .typeError else .ok ())).1 = [1] from rfl]
  decide

theorem runPhases_all_ok (outcome : Nat → Except PyErr Unit) :
    ∀ l : List Nat, (∀ j ∈ l, outcome j = .ok ()) → runPhases outcome l = (l, none) := by
  intro l
  induction l with
  | nil => intro _; rfl
  | cons i rest ih =>
    intro h
    have hi := h i (List.mem_cons_self i rest)
    have hr := ih (fun j hj => h j (List.mem_cons_of_mem i hj))
    simp [runPhases, hi, hr]

theorem runPhases_err (outcome : Nat → Except PyErr Unit) (i : Nat) (e : PyErr)
    (herr : outcome i = .error e) :
    ∀ l₁ l₂ : List Nat, (∀ j ∈ l₁, outcome j = .ok ()) →
      runPhases outcome (l₁ ++ i :: l₂) = (l₁ ++ [i], some e) := by
  intro l₁
  induction l₁ with
  | nil =>
    intro l₂ _
    simp [runPhases, herr]
  | cons a rest ih =>
    intro l₂ h
    have ha := h a (List.mem_cons_self a rest)
    have hr := ih l₂ (fun j hj => h j (List.mem_cons_of_mem a hj))
    simp [runPhases, ha, hr]

/-- Claim C7 (amended). Within one `run_cycle` invocation, an exception raised
inside a phase aborts the invocation: the phases before it and the raising
phase itself are the only ones that execute, the later phases are skipped, and
the exception escapes `run_cycle`.  It is the `_loop` wrapper that catches and
logs it, so the *next* cycle still runs (`loopIteration` is total and returns
the executed-phase list).  When no phase raises, all seven phases execute. -/
theorem run_cycle_aborts_on_phase_error :
    (∀ (outcome : Nat → Except PyErr Unit) (l₁ l₂ : List Nat) (i : Nat) (e : PyErr),
      [1, 2, 3, 4, 5, 6, 7] = l₁ ++ i :: l₂ →
      outcome i = .error e →
      (∀ j ∈ l₁, outcome j = .ok ()) →
      runCycle outcome = (l₁ ++ [i], some e) ∧
        loopIteration outcome = l₁ ++ [i] ∧
        ∀ j ∈ l₂, j ∉ (runCycle outcome).1) ∧
    (∀ outcome : Nat → Except PyErr Unit,
      (∀ j ∈ ([1, 2, 3, 4, 5, 6, 7] : List Nat), outcome j = .ok ()) →
      runCycle outcome = ([1, 2, 3, 4, 5, 6, 7], none)) := by
  constructor
  · intro outcome l₁ l₂ i e hsplit herr hok
    have hrun : runCycle outcome = (l₁ ++ [i], some e) := by
      unfold runCycle
      rw [hsplit]
      exact runPhases_err outcome i e herr l₁ l₂ hok
    refine ⟨hrun, by rw [loopIteration, hrun], ?_⟩
    intro j hj
    rw [hrun]
    have hnd : (l₁ ++ i :: l₂).Nodup := by
      rw [← hsplit]
      decide
    obtain ⟨hnd₁, hnd₂, hdisj⟩ := List.nodup_append.1 hnd
    intro hmem
    rcases List.mem_append.1 hmem with hin₁ | hin₂
    · exact hdisj hin₁ (List.mem_cons_of_mem i hj)
    · have : j = i := List.mem_singleton.1 hin₂
      subst this
      exact (List.nodup_cons.1 hnd₂).1 hj
  · intro outcome h
    exact runPhases_all_ok outcome [1, 2, 3, 4, 5, 6, 7] h

/-- Witness for the amended C7 at a concrete outcome: phase 3 (the timeout
sweep) raising stops the cycle after `[1, 2, 3]`, and an all-ok cycle runs all
seven phases. -/
theorem run_cycle_aborts_on_phase_error_witness :
    (runCycle (fun n => if n = 3 then .error .typeError else .ok ()) =
      ([1, 2] ++ [3], some .typeError) ∧
      loopIteration (fun n => if n = 3 then .error .typeError else .ok ()) = [1, 2] ++ [3] ∧
      ∀ j ∈ ([4, 5, 6, 7] : List Nat),
        j ∉ (runCycle (fun n => if n = 3 then .error .typeError else .ok ())).1) ∧
    runCycle (fun _ => .ok ()) = ([1, 2, 3, 4, 5, 6, 7], none) := by
  constructor
  · exact run_cycle_aborts_on_phase_error.1
      (fun n => if n = 3 then .error .typeError else .ok ()) [1, 2] [4, 5, 6, 7] 3 .typeError
      rfl rfl (by intro j hj; fin_cases hj <;> rfl)
  · exact run_cycle_aborts_on_phase_error.2 (fun _ => .ok ()) (by intro j hj; rfl)

/-! Part: Webhook deduplicator

From `coordinator/webhook_processor.py` (`WebhookProcessor._analyze_event_sequence`).
The `WebhookEvent` record itself is not defined in the coordinator sources
(the processor imports it from `coordinator.public_api`, which does not define
it); its fields are reconstructed from the spec's data model (§3) and the
processor's and tests' usage.  A stored payload string is abstracted by its
`json.loads` outcome: `none` = NULL/empty payload (falsy), `some none` = text
that raises `json.JSONDecodeError`, `some (some j)` = text parsing to `j`. -/

/-- Embeds `EventType` from `execution_grid/public_api.py`.  (The scheduler sources
also reference `EventType.ISSUE_COMMENT` and `EventType.CHECK_RUN_FAILED`,
but those members do not exist in the enum.) -/
inductive BusEventType where
  | AGENT_STARTED
  | AGENT_PROGRESS
  | AGENT_CHAT
  | AGENT_COMPLETED
  | AGENT_FAILED
  | ISSUE_CREATED
  | ISSUE_UPDATED
  | NUDGE_REQUESTED
  | PR_REVIEW
  | PR_CLOSED
  deriving Repr, DecidableEq

/-- A row of the `webhook_events` table. -/
structure WebhookEventRow where
  id : Nat
  delivery_id : String
  event_type : String
  action : Option String
  repo : Option String
  issue_id : Option String
  payload : Option (Option Json)
  processed : Bool
  coalesced_into : Option Nat
  received_at : Nat

/-- Embeds `ProcessingDecision` from `webhook_processor.py`. -/
structure ProcessingDecision where
  should_trigger : Bool
  event_type : Option BusEventType
  reason : String
  labels : Option Json

/-- The nudge-comment scan at the top of `_analyze_event_sequence`:
`payload.get("comment", {}).get("body", "")` followed by a case-insensitive
substring test; only `json.JSONDecodeError` is caught. -/
def nudgeScan : List WebhookEventRow → Except PyErr Bool
  | [] => .ok false
  | e :: rest =>
    if e.event_type = "issue_comment" ∧ e.action = some "created" then
      match e.payload with
      | some (some j) =>
        match j.pyGet "comment" (.obj []) with
        | .error er => .error er
        | .ok comment =>
          match comment.pyGet "body" (.str "") with
          | .error er => .error er
          | .ok body =>
            match body with
            | .str s =>
              if strContains s.toLower "@agent-grid nudge" then .ok true
              else nudgeScan rest
            | _ => .error .attributeError
      | some none => nudgeScan rest
      | none => nudgeScan rest
    else nudgeScan rest

/-- Python iteration (`for x in j`): list elements, string characters, dict
keys; `TypeError` otherwise. -/
def iterJson (j : Json) : Except PyErr (List Json) :=
  match j with
  | .arr items => .ok items
  | .str s => .ok (s.toList.map (fun c => Json.str (String.mk [c])))
  | .obj fields => .ok (fields.map (fun f => Json.str f.1))
  | _ => .error .typeError

/-- Embeds `label["name"] if isinstance(label, dict) else label`. -/
def labelName (item : Json) : Except PyErr Json :=
  match item with
  | .obj fields =>
    match Json.lookupField fields "name" with
    | some v => .ok v
    | none => .error .keyError
  | _ => .ok item

/-- The final-label extraction loop of `_analyze_event_sequence`: walk the
events newest-first; a top-level `labels` key is taken raw, otherwise a truthy
`issue` object with a `labels` key contributes the converted name list; only
`json.JSONDecodeError` is caught.  Default: the empty list. -/
def extractLabelsLoop : List WebhookEventRow → Except PyErr Json
  | [] => .ok (.arr [])
  | e :: rest =>
    match e.payload with
    | some (some j) =>
      match j.pyContains "labels" with
      | .error er => .error er
      | .ok true =>
        match j.pyGet "labels" (.arr []) with
        | .error er => .error er
        | .ok v => .ok v
      | .ok false =>
        match j.pyGet "issue" (.obj []) with
        | .error er => .error er
        | .ok issue_data =>
          if issue_data.truthy then
            match issue_data.pyContains "labels" with
            | .error er => .error er
            | .ok true =>
              match issue_data.pyGet "labels" (.arr []) with
              | .error er => .error er
              | .ok raw =>
                match iterJson raw with
                | .error er => .error er
                | .ok items =>
                  match items.mapM labelName with
                  | .error er => .error er
                  | .ok names => .ok (.arr names)
            | .ok false => extractLabelsLoop rest
          else extractLabelsLoop rest
    | some none => extractLabelsLoop rest
    | none => extractLabelsLoop rest

/-- Embeds `final_labels` of `_analyze_event_sequence` (the loop iterates
`reversed(events)`). -/
def extractFinalLabels (events : List WebhookEventRow) : Except PyErr Json :=
  extractLabelsLoop events.reverse

/-- Embeds `set(final_labels) & {"agent", "automated", "agent-grid"}` as a
non-emptiness test: building the set iterates `final_labels` and raises
`TypeError` on an unhashable element; the intersection keeps equal strings. -/
def hasTriggerLabel (final_labels : Json) : Except PyErr Bool :=
  match iterJson final_labels with
  | .error er => .error er
  | .ok items =>
    if items.any (fun i => match i with
        | .arr _ => true
        | .obj _ => true
        | _ => false) then
      .error .typeError
    else
      .ok (items.any (fun i => match i with
        | .str s => s == "agent" || s == "automated" || s == "agent-grid"
        | _ => false))

/-- Embeds `WebhookProcessor._analyze_event_sequence`. -/
def analyzeEventSequence (events : List WebhookEventRow) : Except PyErr ProcessingDecision :=
  if events.isEmpty then
    .ok ⟨false, none, "no events", none⟩
  else
    let actions := events.map (fun e => e.action)
    if actions.contains (some "closed") then
      .ok ⟨false, none, "issue was closed", none⟩
    else
      match nudgeScan events with
      | .error er => .error er
      | .ok true => .ok ⟨true, some .NUDGE_REQUESTED, "nudge command in comment", none⟩
      | .ok false =>
        let has_opened := actions.contains (some "opened")
        let has_labeled := actions.contains (some "labeled")
        match extractFinalLabels events with
        | .error er => .error er
        | .ok final_labels =>
          match hasTriggerLabel final_labels with
          | .error er => .error er
          | .ok has_trigger =>
            if has_opened && has_trigger then
              .ok ⟨true, some .ISSUE_CREATED, "issue opened with trigger label", some final_labels⟩
            else if has_opened then
              -- this inner branch is unreachable (kept from the source)
              (if has_trigger then
                .ok ⟨true, some .ISSUE_CREATED, "issue opened and labeled", some final_labels⟩
              else
                .ok ⟨false, none, "issue opened without trigger label", none⟩)
            else if has_labeled && has_trigger then
              .ok ⟨true, some .ISSUE_UPDATED, "trigger label added", some final_labels⟩
            else
              -- the f-string suffix listing the actions is elided
              .ok ⟨false, none, "no actionable events", none⟩

/-- The spec's trigger-label predicate for a coalesced group (§4.3): any of
{`agent`, `automated`, `agent-grid`} or any `ag/*`-prefixed label.  Stated
from the spec's words, for comparison with the implementation's decision. -/
def specTriggerLabelSet (final_labels : Json) : Bool :=
  match final_labels with
  | .arr items =>
    items.any (fun i => match i with
      | .str s => s == "agent" || s == "automated" || s == "agent-grid" || strStartsWith s "ag/"
      | _ => false)
  | _ => false

/-- The `opened` webhook event of the C6 counterexample: final label set
`["ag/todo"]`. -/
def cexOpenedAgTodoEvent : WebhookEventRow :=
  { id := 1
    delivery_id := "d1"
    event_type := "issues"
    action := some "opened"
    repo := some "o/r"
    issue_id := some "123"
    payload := some (some (.obj
      [("action", .str "opened"),
       ("issue", .obj
         [("number", .num 123),
          ("labels", .arr [.obj [("name", .str "ag/todo")]])])]))
    processed := false
    coalesced_into := none
    received_at := 0 }

/-- Claim C6 counterexample. A coalesced group of one `opened` event whose final
label set is `["ag/todo"]` (no `closed`, no nudge): the spec's trigger
predicate holds (`ag/todo` has prefix `ag/`), but the deduplicator DROPs the
group — its trigger set is only {`agent`, `automated`, `agent-grid`} and
`ag/*`-prefixed labels do not trigger. -/
theorem analyze_event_sequence_ag_label_cex :
    analyzeEventSequence [cexOpenedAgTodoEvent] =
      .ok ⟨false, none, "issue opened without trigger label", none⟩ ∧
    extractFinalLabels [cexOpenedAgTodoEvent] = .ok (.arr [.str "ag/todo"]) ∧
    specTriggerLabelSet (.arr [.str "ag/todo"]) = true := by
  exact ⟨rfl, rfl, rfl⟩

/-- Claim C6 (amended). For every coalesced group containing an `opened` action,
no `closed` action and no nudge comment, whose final-label extraction and
trigger-set computation complete without a Python error, the decision is EMIT
`ISSUE_CREATED` (with the coalesced labels) exactly when the final label set
contains one of the three legacy trigger labels {`agent`, `automated`,
`agent-grid`}; otherwise the group is dropped with reason
"issue opened without trigger label".  `ag/*`-prefixed labels are not part of
the implementation's trigger set. -/
theorem analyze_event_sequence_opened_legacy_trigger :
    ∀ (events : List WebhookEventRow) (ls : Json) (b : Bool),
      events ≠ [] →
      (events.map (fun e => e.action)).contains (some "closed") = false →
      nudgeScan events = .ok false →
      (events.map (fun e => e.action)).contains (some "opened") = true →
      extractFinalLabels events = .ok ls →
      hasTriggerLabel ls = .ok b →
      analyzeEventSequence events =
        .ok (if b then
              ⟨true, some .ISSUE_CREATED, "issue opened with trigger label", some ls⟩
            else
              ⟨false, none, "issue opened without trigger label", none⟩) := by
  intro events ls b hne hclosed hnudge hopened hextract htrig
  cases events with
  | nil => exact absurd rfl hne
  | cons e rest =>
    unfold analyzeEventSequence
    simp only [List.isEmpty_cons, Bool.false_eq_true, if_false, hclosed, hnudge, hopened,
      hextract, htrig, Bool.true_and]
    cases b with
    | true => simp
    | false => simp

/-- Witness for the amended C6: a single `opened` event with final labels
`["agent"]` triggers `ISSUE_CREATED`. -/
theorem analyze_event_sequence_opened_legacy_trigger_witness :
    analyzeEventSequence
      [{ cexOpenedAgTodoEvent with
          payload := some (some (.obj
            [("action", .str "opened"),
             ("issue", .obj
               [("number", .num 123),
                ("labels", .arr [.obj [("name", .str "agent")]])])])) }] =
      .ok ⟨true, some .ISSUE_CREATED, "issue opened with trigger label",
        some (.arr [.str "agent"])⟩ := by
  have h := analyze_event_sequence_opened_legacy_trigger
    [{ cexOpenedAgTodoEvent with
        payload := some (some (.obj
          [("action", .str "opened"),
           ("issue", .obj
             [("number", .num 123),
              ("labels", .arr [.obj [("name", .str "agent")]])])])) }]
    (.arr [.str "agent"]) true (by simp) rfl rfl rfl rfl rfl
  simpa using h

/-! Part: Webhook ingress handler

From `issue_tracker/webhook_handler.py` (`handle_github_webhook` and its
per-event-type helpers), embedded after signature verification and JSON
parsing succeed (the claim is about accepted deliveries).  The embedding
returns the HTTP response together with the list of events published to the
in-process event bus; the handler makes no store call at all, so there is no
persistence action to record. -/

/-- Python `j == "s"` (string equality; a non-string JSON value never equals
a string). -/
def jsonEqStr (j : Json) (s : String) : Bool :=
  match j with
  | .str s' => s' = s
  | _ => false

/-- Python `j is None` for a JSON value decoded from a payload. -/
def Json.isNull : Json → Bool
  | .null => true
  | _ => false

/-- Python `str(x)` on JSON scalars (container reprs elided). -/
def pyStr : Json → String
  | .num n => toString n
  | .str s => s
  | .null => "None"
  | .bool true => "True"
  | .bool false => "False"
  | .arr _ => "[...]"
  | .obj _ => "\x7b...\x7d"

/-- The HTTP outcome of the webhook endpoint. -/
inductive HttpResult where
  | ok (body : List (String × Json))
  | httpError (code : Nat)

/-- Embeds `[label["name"] for label in labels_value]`. -/
def labelNamesStrict (labels_value : Json) : Except PyErr (List Json) :=
  match iterJson labels_value with
  | .error er => .error er
  | .ok items => items.mapM (fun l => l.pyIndex "name")

/-- Embeds `_handle_issue_event`. -/
def handleIssueEvent (data : Json) : Except PyErr (List (BusEventType × Json)) :=
  match data.pyGet "action" .null with
  | .error er => .error er
  | .ok action =>
    match data.pyGet "issue" (.obj []) with
    | .error er => .error er
    | .ok issue =>
      match data.pyGet "repository" (.obj []) with
      | .error er => .error er
      | .ok repo =>
        match repo.pyGet "full_name" .null with
        | .error er => .error er
        | .ok repo_full_name =>
          match issue.pyGet "number" .null with
          | .error er => .error er
          | .ok issue_number =>
            if !repo_full_name.truthy || issue_number.isNull then
              .ok []
            else if jsonEqStr action "opened" then
              match issue.pyGet "title" .null with
              | .error er => .error er
              | .ok title =>
                match issue.pyGet "body" .null with
                | .error er => .error er
                | .ok body =>
                  match issue.pyGet "labels" (.arr []) with
                  | .error er => .error er
                  | .ok labels_value =>
                    match labelNamesStrict labels_value with
                    | .error er => .error er
                    | .ok names =>
                      match issue.pyGet "html_url" .null with
                      | .error er => .error er
                      | .ok html_url =>
                        .ok [(.ISSUE_CREATED, .obj
                          [("repo", repo_full_name),
                           ("issue_id", .str (pyStr issue_number)),
                           ("title", title),
                           ("body", body),
                           ("labels", .arr names),
                           ("html_url", html_url)])]
            else if jsonEqStr action "edited" || jsonEqStr action "labeled" ||
                jsonEqStr action "unlabeled" || jsonEqStr action "assigned" ||
                jsonEqStr action "closed" || jsonEqStr action "reopened" then
              match issue.pyGet "title" .null with
              | .error er => .error er
              | .ok title =>
                match issue.pyGet "body" .null with
                | .error er => .error er
                | .ok body =>
                  match issue.pyGet "state" .null with
                  | .error er => .error er
                  | .ok state =>
                    match issue.pyGet "labels" (.arr []) with
                    | .error er => .error er
                    | .ok labels_value =>
                      match labelNamesStrict labels_value with
                      | .error er => .error er
                      | .ok names =>
                        .ok [(.ISSUE_UPDATED, .obj
                          [("repo", repo_full_name),
                           ("issue_id", .str (pyStr issue_number)),
                           ("action", action),
                           ("title", title),
                           ("body", body),
                           ("state", state),
                           ("labels", .arr names)])]
            else
              .ok []

/-- Embeds `any(label.startswith("ag/") for label in labels)`: lazy, and
`.startswith` on a non-string raises `AttributeError`. -/
def anyStartsWithAg : List Json → Except PyErr Bool
  | [] => .ok false
  | l :: rest =>
    match l with
    | .str s => if strStartsWith s "ag/" then .ok true else anyStartsWithAg rest
    | _ => .error .attributeError

/-- Embeds `_handle_issue_comment_event`.  The final branch references
`EventType.ISSUE_COMMENT`, a member that does not exist in the
`execution_grid` enum, so reaching it raises `AttributeError`. -/
def handleIssueCommentEvent (data : Json) : Except PyErr (List (BusEventType × Json)) :=
  match data.pyGet "action" .null with
  | .error er => .error er
  | .ok action =>
    match data.pyGet "issue" (.obj []) with
    | .error er => .error er
    | .ok issue =>
      match data.pyGet "comment" (.obj []) with
      | .error er => .error er
      | .ok comment =>
        match data.pyGet "repository" (.obj []) with
        | .error er => .error er
        | .ok repo =>
          if !jsonEqStr action "created" then
            .ok []
          else
            match repo.pyGet "full_name" .null with
            | .error er => .error er
            | .ok repo_full_name =>
              match issue.pyGet "number" .null with
              | .error er => .error er
              | .ok issue_number =>
                if !repo_full_name.truthy || issue_number.isNull then
                  .ok []
                else
                  match comment.pyGet "body" (.str "") with
                  | .error er => .error er
                  | .ok comment_body =>
                    match issue.pyGet "labels" (.arr []) with
                    | .error er => .error er
                    | .ok labels_value =>
                      match labelNamesStrict labels_value with
                      | .error er => .error er
                      | .ok names =>
                        match issue.pyContains "pull_request" with
                        | .error er => .error er
                        | .ok _is_pull_request =>
                          match comment_body with
                          | .str s =>
                            if strContains s.toLower "@agent-grid nudge" then
                              .ok [(.NUDGE_REQUESTED, .obj
                                [("repo", repo_full_name),
                                 ("issue_id", .str (pyStr issue_number)),
                                 ("source", .str "comment"),
                                 ("comment_body", .str s)])]
                            else
                              match anyStartsWithAg names with
                              | .error er => .error er
                              | .ok true => .error .attributeError
                              | .ok false => .ok []
                          | _ => .error .attributeError

/-- Embeds `_handle_pr_review_event`. -/
def handlePrReviewEvent (data : Json) : Except PyErr (List (BusEventType × Json)) :=
  match data.pyGet "action" .null with
  | .error er => .error er
  | .ok action =>
    if !jsonEqStr action "submitted" then
      .ok []
    else
      match data.pyGet "pull_request" (.obj []) with
      | .error er => .error er
      | .ok pr =>
        match pr.pyGet "head" (.obj []) with
        | .error er => .error er
        | .ok head =>
          match head.pyGet "ref" (.str "") with
          | .error er => .error er
          | .ok head_branch =>
            match head_branch with
            | .str s =>
              if !strStartsWith s "agent/" then
                .ok []
              else
                match data.pyGet "repository" (.obj []) with
                | .error er => .error er
                | .ok repoObj =>
                  match repoObj.pyGet "full_name" (.str "") with
                  | .error er => .error er
                  | .ok repoName =>
                    match pr.pyGet "number" .null with
                    | .error er => .error er
                    | .ok prNum =>
                      match data.pyGet "review" (.obj []) with
                      | .error er => .error er
                      | .ok review =>
                        match review.pyGet "state" .null with
                        | .error er => .error er
                        | .ok state =>
                          .ok [(.PR_REVIEW, .obj
                            [("repo", repoName),
                             ("pr_number", prNum),
                             ("branch", .str s),
                             ("review_state", state)])]
            | _ => .error .attributeError

/-- Embeds `_handle_pr_review_comment_event`. -/
def handlePrReviewCommentEvent (data : Json) : Except PyErr (List (BusEventType × Json)) :=
  match data.pyGet "action" .null with
  | .error er => .error er
  | .ok action =>
    if !jsonEqStr action "created" then
      .ok []
    else
      match data.pyGet "pull_request" (.obj []) with
      | .error er => .error er
      | .ok pr =>
        match pr.pyGet "head" (.obj []) with
        | .error er => .error er
        | .ok head =>
          match head.pyGet "ref" (.str "") with
          | .error er => .error er
          | .ok head_branch =>
            match head_branch with
            | .str s =>
              if !strStartsWith s "agent/" then
                .ok []
              else
                match data.pyGet "repository" (.obj []) with
                | .error er => .error er
                | .ok repoObj =>
                  match repoObj.pyGet "full_name" (.str "") with
                  | .error er => .error er
                  | .ok repoName =>
                    match pr.pyGet "number" .null with
                    | .error er => .error er
                    | .ok prNum =>
                      .ok [(.PR_REVIEW, .obj
                        [("repo", repoName),
                         ("pr_number", prNum),
                         ("branch", .str s),
                         ("review_state", .str "commented")])]
            | _ => .error .attributeError

/-- Embeds `_handle_pr_event`. -/
def handlePrEvent (data : Json) : Except PyErr (List (BusEventType × Json)) :=
  match data.pyGet "action" .null with
  | .error er => .error er
  | .ok action =>
    if !jsonEqStr action "closed" then
      .ok []
    else
      match data.pyGet "pull_request" (.obj []) with
      | .error er => .error er
      | .ok pr =>
        match pr.pyGet "head" (.obj []) with
        | .error er => .error er
        | .ok head =>
          match head.pyGet "ref" (.str "") with
          | .error er => .error er
          | .ok head_branch =>
            match head_branch with
            | .str s =>
              if !strStartsWith s "agent/" then
                .ok []
              else
                match data.pyGet "repository" (.obj []) with
                | .error er => .error er
                | .ok repoObj =>
                  match repoObj.pyGet "full_name" (.str "") with
                  | .error er => .error er
                  | .ok repoName =>
                    match pr.pyGet "number" .null with
                    | .error er => .error er
                    | .ok prNum =>
                      match pr.pyGet "merged" (.bool false) with
                      | .error er => .error er
                      | .ok merged =>
                        .ok [(.PR_CLOSED, .obj
                          [("repo", repoName),
                           ("pr_number", prNum),
                           ("branch", .str s),
                           ("merged", merged)])]
            | _ => .error .attributeError

/-- Embeds `handle_github_webhook` after signature verification and JSON parsing:
dispatches on the `X-GitHub-Event` header, returns the HTTP body and the list
of events published to the event bus; any exception inside the dispatch is
answered with HTTP 500. -/
def handleGithubWebhook (x_github_event : String) (data : Json) :
    HttpResult × List (BusEventType × Json) :=
  let dispatched : Except PyErr (HttpResult × List (BusEventType × Json)) :=
    if x_github_event = "issues" then
      match handleIssueEvent data with
      | .error er => .error er
      | .ok pubs => .ok (.ok [("status", .str "ok")], pubs)
    else if x_github_event = "issue_comment" then
      match handleIssueCommentEvent data with
      | .error er => .error er
      | .ok pubs => .ok (.ok [("status", .str "ok")], pubs)
    else if x_github_event = "pull_request_review" then
      match handlePrReviewEvent data with
      | .error er => .error er
      | .ok pubs => .ok (.ok [("status", .str "ok")], pubs)
    else if x_github_event = "pull_request_review_comment" then
      match handlePrReviewCommentEvent data with
      | .error er => .error er
      | .ok pubs => .ok (.ok [("status", .str "ok")], pubs)
    else if x_github_event = "pull_request" then
      match handlePrEvent data with
      | .error er => .error er
      | .ok pubs => .ok (.ok [("status", .str "ok")], pubs)
    else if x_github_event = "ping" then
      .ok (.ok [("status", .str "pong")], [])
    else
      .ok (.ok [("status", .str "ok")], [])
  match dispatched with
  | .ok v => v
  | .error _ => (.httpError 500, [])

/-- An accepted `issues`/`opened` delivery for issue 42 of `o/r` labeled
`ag/todo`. -/
def ingressOpenedDelivery : Json :=
  .obj
    [("action", .str "opened"),
     ("issue", .obj
       [("number", .num 42),
        ("title", .str "T"),
        ("body", .str "B"),
        ("labels", .arr [.obj [("name", .str "ag/todo")]]),
        ("html_url", .str "u")]),
     ("repository", .obj [("full_name", .str "o/r")])]

/-- Claim C3. Evaluating `handle_github_webhook` on an accepted `issues/opened`
delivery: the handler publishes `ISSUE_CREATED` directly to the in-process
event bus (the publish list is non-empty) and responds with status `"ok"` —
it never calls `create_webhook_event` (the handler makes no store call, and no
such method exists on `Database`), and it never answers `"queued"` or
`"duplicate"` as the claim requires. -/
theorem webhook_ingress_publishes_and_returns_ok :
    handleGithubWebhook "issues" ingressOpenedDelivery =
      (.ok [("status", .str "ok")],
       [(.ISSUE_CREATED, .obj
          [("repo", .str "o/r"),
           ("issue_id", .str "42"),
           ("title", .str "T"),
           ("body", .str "B"),
           ("labels", .arr [.str "ag/todo"]),
           ("html_url", .str "u")])]) ∧
    (handleGithubWebhook "issues" ingressOpenedDelivery).2 ≠ [] := by
  have h : handleGithubWebhook "issues" ingressOpenedDelivery =
      (.ok [("status", .str "ok")],
       [(.ISSUE_CREATED, .obj
          [("repo", .str "o/r"),
           ("issue_id", .str "42"),
           ("title", .str "T"),
           ("body", .str "B"),
           ("labels", .arr [.str "ag/todo"]),
           ("html_url", .str "u")])]) := rfl
  refine ⟨h, ?_⟩
  rw [h]
  exact List.cons_ne_nil _ _

/-! Part: Agent-launch paths

From `coordinator/management_loop.py` (`ManagementLoop._claim_and_launch`)
and `coordinator/scheduler.py` (`Scheduler._try_launch_agent`).  Each path is
embedded as a function that also returns the ordered trace of its observable
actions; the compute backend's `launch_agent` and the issue fetch are
abstracted by their outcomes. -/

/-- Observable actions of a launch path, in execution order. -/
inductive LaunchAction where
  | budgetCheck (allowed : Bool)
  | activeCheck (found : Bool)
  | fetchIssue (ok : Bool)
  | backendLaunch
  | claimAttempt (won : Bool)
  | markFailed
  deriving Repr, DecidableEq

/-- Embeds `Database.get_execution_for_issue`: most recent row for the issue
(`ORDER BY created_at DESC LIMIT 1`). -/
def getExecutionForIssue (db : DB) (issue_id : String) : Option ExecutionRow :=
  ((db.executions.filter (fun r => r.issue_id = issue_id)).insertionSort
    (fun a b => b.created_at ≤ a.created_at)).head?

/-- Embeds `ManagementLoop._claim_and_launch`: build a pending execution, claim via
`try_claim_issue` FIRST, then submit to the compute backend; if the
submission throws, mark the claimed execution failed via `update_execution`.
Returns (launched?, store, action trace). -/
def claimAndLaunch (db : DB) (execution_id : Nat) (repo_url prompt issue_id : String)
    (launchOutcome : Except String Unit) (now : Nat) :
    Bool × DB × List LaunchAction :=
  let execution : AgentExecution :=
    ⟨execution_id, repo_url, .pending, some prompt, none, some now, none, now⟩
  let claim := tryClaimIssue db db execution issue_id
  if claim.1 = false then
    (false, claim.2, [.claimAttempt false])
  else
    match launchOutcome with
    | .ok _ => (true, claim.2, [.claimAttempt true, .backendLaunch])
    | .error e =>
      let failed : AgentExecution :=
        { execution with status := .failed, result := some ("Launch failed: " ++ e) }
      match updateExecution claim.2 failed with
      | .ok db2 => (false, db2, [.claimAttempt true, .backendLaunch, .markFailed])
      | .error _ =>
        -- unreachable: demoting a row to failed cannot violate the partial index
        (false, claim.2, [.claimAttempt true, .backendLaunch, .markFailed])

/-- Embeds `Scheduler._try_launch_agent`: budget check, active-execution check, issue
fetch, then `grid.launch_agent` — and only AFTER the backend submission does
it call `try_claim_issue` with the backend's execution id.  An exception from
`launch_agent` propagates out of the method (there is no `try` around it).
Returns (action trace, result): the result is the returned execution id (or
`none`) with the store, or the escaping exception. -/
def schedTryLaunchAgent (db : DB) (max_concurrent : Nat) (issue_id repo : String)
    (issueFetch : Except String Int) (prompt : String) (launchOutcome : Except String Nat)
    (now : Nat) : List LaunchAction × Except String (Option Nat × DB) :=
  let budget := canLaunchAgent db max_concurrent
  if budget.1 = false then
    ([.budgetCheck false], .ok (none, db))
  else
    let activeFound : Bool :=
      match getExecutionForIssue db issue_id with
      | some existing => decide (existing.status = .pending ∨ existing.status = .running)
      | none => false
    if activeFound then
      ([.budgetCheck true, .activeCheck true], .ok (none, db))
    else
      match issueFetch with
      | .error _ =>
        ([.budgetCheck true, .activeCheck false, .fetchIssue false], .ok (none, db))
      | .ok _issue_number =>
        let repo_url := "https://github.com/" ++ repo ++ ".git"
        match launchOutcome with
        | .error e =>
          ([.budgetCheck true, .activeCheck false, .fetchIssue true, .backendLaunch],
           .error e)
        | .ok execution_id =>
          let execution : AgentExecution :=
            ⟨execution_id, repo_url, .pending, some prompt, none, some now, none, now⟩
          let claim := tryClaimIssue db db execution issue_id
          if claim.1 = false then
            ([.budgetCheck true, .activeCheck false, .fetchIssue true, .backendLaunch,
              .claimAttempt false], .ok (none, claim.2))
          else
            ([.budgetCheck true, .activeCheck false, .fetchIssue true, .backendLaunch,
              .claimAttempt true], .ok (some execution_id, claim.2))

/-- Claim C2. Evaluating both launch paths at concrete inputs.  The
management-loop path honors claim-then-launch: its trace is
`[claim won, backend launch, mark failed]` when the backend submission throws,
and the claimed execution ends up `failed`, never pending.  The scheduler path
violates the claim: on the nudge path with an empty store, budget OK, issue
fetch OK and a successful backend submission, its trace places
`backendLaunch` (index 3) BEFORE the `try_claim_issue` call (index 4) — the
store claim has not succeeded when the compute backend is contacted. -/
theorem scheduler_contacts_backend_before_claim :
    claimAndLaunch ⟨[]⟩ 7 "https://github.com/o/r.git" "p" "42" (.error "boom") 9 =
      (false,
       ⟨[⟨7, "42", "https://github.com/o/r.git", .failed, some "p",
          some "Launch failed: boom", some 9, none, 9⟩]⟩,
       [.claimAttempt true, .backendLaunch, .markFailed]) ∧
    schedTryLaunchAgent ⟨[]⟩ 5 "42" "o/r" (.ok 42) "p" (.ok 77) 9 =
      ([.budgetCheck true, .activeCheck false, .fetchIssue true, .backendLaunch,
        .claimAttempt true],
       .ok (some 77,
        ⟨[⟨77, "42", "https://github.com/o/r.git", .pending, some "p",
           none, some 9, none, 9⟩]⟩)) ∧
    (schedTryLaunchAgent ⟨[]⟩ 5 "42" "o/r" (.ok 42) "p" (.ok 77) 9).1.get? 3 =
      some .backendLaunch ∧
    (schedTryLaunchAgent ⟨[]⟩ 5 "42" "o/r" (.ok 42) "p" (.ok 77) 9).1.get? 4 =
      some (.claimAttempt true) := by
  exact ⟨rfl, rfl, rfl, rfl⟩

/-! Part: Nudge queue

From `coordinator/database.py` (`create_nudge`, `get_pending_nudges`,
`mark_nudge_processed`, `get_execution`), `coordinator/scheduler.py`
(`Scheduler._process_pending_nudges`, `Scheduler._extract_repo_from_url`) and
`coordinator/nudge_handler.py` (`mark_processed` forwards to
`mark_nudge_processed`).  `_try_launch_agent` is abstracted by its outcome
(the execution id it returns, or `None`); it never touches the nudge table. -/

/-- A row of the `nudge_queue` table (the columns `create_nudge` inserts). -/
structure NudgeRow where
  id : Nat
  issue_id : String
  source_execution_id : Option Nat
  priority : Int
  created_at : Nat
  processed_at : Option Nat
  deriving Repr, DecidableEq

/-- The SQL ordering `ORDER BY priority DESC, created_at ASC`. -/
def nudgeLe (a b : NudgeRow) : Prop :=
  b.priority < a.priority ∨ (a.priority = b.priority ∧ a.created_at ≤ b.created_at)

instance : DecidableRel nudgeLe := fun a b => by
  unfold nudgeLe
  exact inferInstance

instance : IsTotal NudgeRow nudgeLe := ⟨by
  intro a b
  unfold nudgeLe
  omega⟩

instance : IsTrans NudgeRow nudgeLe := ⟨by
  intro a b c hab hbc
  unfold nudgeLe at hab hbc ⊢
  omega⟩

/-- Embeds `Database.get_pending_nudges`: `WHERE processed_at IS NULL ORDER BY
priority DESC, created_at ASC LIMIT limit`. -/
def getPendingNudges (rows : List NudgeRow) (limit : Nat) : List NudgeRow :=
  ((rows.filter (fun r => r.processed_at = none)).insertionSort nudgeLe).take limit

/-- Embeds `UPDATE nudge_queue SET processed_at = now WHERE id = nudge_id`. -/
def setNudgeProcessed (r : NudgeRow) (now : Nat) : NudgeRow :=
  { r with processed_at := some now }

/-- Embeds `Database.mark_nudge_processed`. -/
def markNudgeProcessed (rows : List NudgeRow) (nudge_id : Nat) (now : Nat) : List NudgeRow :=
  rows.map (fun r => if r.id = nudge_id then setNudgeProcessed r now else r)

/-- Embeds `Database.get_execution` (`SELECT * FROM executions WHERE id = $1`). -/
def getExecution (db : DB) (execution_id : Nat) : Option ExecutionRow :=
  db.executions.find? (fun r => r.id == execution_id)

/-- Embeds `Scheduler._extract_repo_from_url`: `owner/repo` from a GitHub URL, `None`
otherwise (Python's `.replace(".git", "")` removes every occurrence, and the
result of `split` at index 1 can be the falsy empty string). -/
def extractRepoFromUrl (repo_url : String) : Option String :=
  if strContains repo_url "github.com" then
    let parts := (repo_url.replace ".git" "").splitOn "github.com/"
    if 1 < parts.length then parts.get? 1 else none
  else none

/-- The repo resolution of one loop iteration of `_process_pending_nudges`:
from the nudge's source execution, if any. -/
def resolveNudgeRepo (db : DB) (n : NudgeRow) : Option String :=
  match n.source_execution_id with
  | some sid =>
    match getExecution db sid with
    | some source => extractRepoFromUrl source.repo_url
    | none => none
  | none => none

/-- Whether the iteration for nudge `n` reaches a successful launch: the repo
resolves to a truthy string and `_try_launch_agent` returns an execution id
(a returned UUID is always truthy). -/
def launchableNudge (db : DB) (tryLaunch : String → String → Option Nat) (n : NudgeRow) :
    Bool :=
  match resolveNudgeRepo db n with
  | some r => if r.isEmpty then false else (tryLaunch n.issue_id r).isSome
  | none => false

/-- One iteration of the `for nudge in nudges` loop of
`_process_pending_nudges`, acting on the nudge table. -/
def processNudgeStep (db : DB) (tryLaunch : String → String → Option Nat) (now : Nat)
    (acc : List NudgeRow) (n : NudgeRow) : List NudgeRow :=
  match resolveNudgeRepo db n with
  | some r =>
    if r.isEmpty then acc
    else
      match tryLaunch n.issue_id r with
      | some _ => markNudgeProcessed acc n.id now
      | none => acc
  | none => acc

/-- Embeds `Scheduler._process_pending_nudges`: fetch `get_pending_nudges(limit=5)`
once, then iterate, marking a nudge processed only after `_try_launch_agent`
returns an execution id. -/
def processPendingNudges (db : DB) (rows : List NudgeRow)
    (tryLaunch : String → String → Option Nat) (now : Nat) : List NudgeRow :=
  (getPendingNudges rows 5).foldl (processNudgeStep db tryLaunch now) rows

/-- Marks a row when its id is in the marked set. -/
def markIf (marked : List Nat) (now : Nat) (r : NudgeRow) : NudgeRow :=
  if r.id ∈ marked then setNudgeProcessed r now else r

theorem processNudgeStep_eq (db : DB) (tryLaunch : String → String → Option Nat)
    (now : Nat) (acc : List NudgeRow) (n : NudgeRow) :
    processNudgeStep db tryLaunch now acc n =
      if launchableNudge db tryLaunch n then markNudgeProcessed acc n.id now else acc := by
  unfold processNudgeStep launchableNudge
  cases hr : resolveNudgeRepo db n with
  | none => rfl
  | some r =>
    by_cases he : r.isEmpty
    · simp [he]
    · cases hl : tryLaunch n.issue_id r <;> simp [he, hl]

theorem markIf_nil (now : Nat) (rows : List NudgeRow) :
    rows.map (markIf [] now) = rows := by
  induction rows with
  | nil => rfl
  | cons r rest ih => simp [markIf, ih]

theorem markNudgeProcessed_map_markIf (rows : List NudgeRow) (marked : List Nat)
    (now : Nat) (i : Nat) :
    markNudgeProcessed (rows.map (markIf marked now)) i now =
      rows.map (markIf (marked ++ [i]) now) := by
  unfold markNudgeProcessed
  rw [List.map_map]
  apply List.map_congr_left
  intro r _
  simp only [Function.comp]
  by_cases hin : r.id ∈ marked
  · have h1 : markIf marked now r = setNudgeProcessed r now := by simp [markIf, hin]
    have h2 : r.id ∈ marked ++ [i] := List.mem_append_left _ hin
    rw [h1]
    by_cases hi : r.id = i
    · simp [setNudgeProcessed, markIf, h2, hi]
    · simp [setNudgeProcessed, markIf, h2, hi]
  · have h1 : markIf marked now r = r := by simp [markIf, hin]
    rw [h1]
    by_cases hi : r.id = i
    · have h2 : r.id ∈ marked ++ [i] := List.mem_append_right _ (by simp [hi])
      simp [markIf, h2, hi]
    · have h2 : r.id ∉ marked ++ [i] := by
        intro hmem
        rcases List.mem_append.1 hmem with h | h
        · exact hin h
        · exact hi (List.mem_singleton.1 h)
      simp [markIf, h2, hi]

theorem foldl_processNudgeStep (db : DB) (tryLaunch : String → String → Option Nat)
    (now : Nat) (rows : List NudgeRow) :
    ∀ (ns : List NudgeRow) (marked : List Nat),
      ns.foldl (processNudgeStep db tryLaunch now) (rows.map (markIf marked now)) =
        rows.map (markIf (marked ++
          (ns.filter (launchableNudge db tryLaunch)).map (fun m => m.id)) now) := by
  intro ns
  induction ns with
  | nil => intro marked; simp
  | cons n rest ih =>
    intro marked
    rw [List.foldl_cons, processNudgeStep_eq]
    by_cases hl : launchableNudge db tryLaunch n
    · rw [if_pos hl, markNudgeProcessed_map_markIf, ih]
      simp [List.filter_cons, hl]
    · rw [if_neg hl, ih]
      simp [List.filter_cons, hl]

theorem processPendingNudges_eq_map (db : DB) (rows : List NudgeRow)
    (tryLaunch : String → String → Option Nat) (now : Nat) :
    processPendingNudges db rows tryLaunch now =
      rows.map (markIf
        (((getPendingNudges rows 5).filter (launchableNudge db tryLaunch)).map
          (fun m => m.id)) now) := by
  unfold processPendingNudges
  have h := foldl_processNudgeStep db tryLaunch now rows (getPendingNudges rows 5) []
  rw [markIf_nil] at h
  simpa using h

theorem orderedInsert_of_le_all (x : NudgeRow) (m : List NudgeRow)
    (h : ∀ b ∈ m, nudgeLe x b) : List.orderedInsert nudgeLe x m = x :: m := by
  cases m with
  | nil => rfl
  | cons b bs =>
    have hb := h b (List.mem_cons_self b bs)
    simp [List.orderedInsert, hb]

theorem orderedInsert_filter (p : NudgeRow → Bool) (x : NudgeRow) :
    ∀ l : List NudgeRow, List.Sorted nudgeLe l →
      (List.orderedInsert nudgeLe x l).filter p =
        if p x then List.orderedInsert nudgeLe x (l.filter p) else l.filter p := by
  intro l
  induction l with
  | nil =>
    intro _
    by_cases hp : p x <;> simp [List.orderedInsert, hp]
  | cons a l ih =>
    intro hs
    have hsl : List.Sorted nudgeLe l := (List.sorted_cons.1 hs).2
    have hal : ∀ b ∈ l, nudgeLe a b := (List.sorted_cons.1 hs).1
    by_cases hxa : nudgeLe x a
    · rw [show List.orderedInsert nudgeLe x (a :: l) = x :: a :: l by
        simp [List.orderedInsert, hxa]]
      by_cases hp : p x
      · rw [if_pos hp]
        have hall : ∀ b ∈ (a :: l).filter p, nudgeLe x b := by
          intro b hb
          have hbmem := List.mem_filter.1 hb
          rcases List.mem_cons.1 hbmem.1 with heq | hmem
          · subst heq; exact hxa
          · exact Trans.trans hxa (hal b hmem)
        rw [orderedInsert_of_le_all x _ hall]
        simp [List.filter_cons, hp]
      · rw [if_neg hp]
        simp [List.filter_cons, hp]
    · rw [show List.orderedInsert nudgeLe x (a :: l) = a :: List.orderedInsert nudgeLe x l by
        simp [List.orderedInsert, hxa]]
      rw [List.filter_cons, ih hsl]
      by_cases hpa : p a
      · by_cases hp : p x
        · simp only [hpa, if_true, hp, List.filter_cons]
          rw [show List.orderedInsert nudgeLe x (a :: l.filter p) =
              a :: List.orderedInsert nudgeLe x (l.filter p) by
            simp [List.orderedInsert, hxa]]
        · simp [hpa, hp, List.filter_cons]
      · by_cases hp : p x
        · simp [hpa, hp, List.filter_cons]
        · simp [hpa, hp, List.filter_cons]

theorem insertionSort_filter (p : NudgeRow → Bool) :
    ∀ l : List NudgeRow,
      (List.insertionSort nudgeLe l).filter p = List.insertionSort nudgeLe (l.filter p) := by
  intro l
  induction l with
  | nil => rfl
  | cons x l ih =>
    rw [List.insertionSort, orderedInsert_filter p x _ (List.sorted_insertionSort nudgeLe l), ih]
    by_cases hp : p x
    · simp [List.filter_cons, hp, List.insertionSort]
    · simp [List.filter_cons, hp]

theorem mem_take_succ {α : Type} (l : List α) (m : Nat) (x : α) (h : x ∈ l.take m) :
    x ∈ l.take (m + 1) := by
  have h2 : l.take m = (l.take (m + 1)).take m := by
    rw [List.take_take]
    congr 1
    omega
  rw [h2] at h
  exact List.take_subset m (l.take (m + 1)) h

theorem mem_take_filter {α : Type} (p : α → Bool) :
    ∀ (l : List α) (nn : Nat) (x : α), x ∈ l.take nn → p x = true →
      x ∈ (l.filter p).take nn := by
  intro l
  induction l with
  | nil =>
    intro nn x h _
    simp at h
  | cons a l ih =>
    intro nn x h hp
    cases nn with
    | zero => simp at h
    | succ m =>
      rw [List.take_succ_cons] at h
      rcases List.mem_cons.1 h with heq | hmem
      · subst heq
        simp [List.filter_cons, hp, List.take_succ_cons]
      · have hrec := ih m x hmem hp
        by_cases hpa : p a = true
        · rw [List.filter_cons, if_pos hpa, List.take_succ_cons]
          exact List.mem_cons_of_mem a hrec
        · rw [List.filter_cons, if_neg hpa]
          exact mem_take_succ _ m x hrec

theorem filter_pending_map_markIf (marked : List Nat) (now : Nat) :
    ∀ rows : List NudgeRow,
      (rows.map (markIf marked now)).filter (fun r => r.processed_at = none) =
        rows.filter (fun r => decide (r.processed_at = none) && !(decide (r.id ∈ marked))) := by
  intro rows
  induction rows with
  | nil => rfl
  | cons r rest ih =>
    rw [List.map_cons, List.filter_cons, List.filter_cons, ih]
    by_cases hin : r.id ∈ marked
    · have h1 : markIf marked now r = setNudgeProcessed r now := by simp [markIf, hin]
      simp [h1, setNudgeProcessed, hin]
    · have h1 : markIf marked now r = r := by simp [markIf, hin]
      by_cases hpend : r.processed_at = none
      · simp [h1, hpend, hin]
      · simp [h1, hpend, hin]

/-- Claim C10. `Scheduler._process_pending_nudges` (a) only ever sets
`processed_at`, and only on the ids of fetched pending nudges whose iteration
reached a successful launch; (b) every such id belongs to a pending nudge
whose repo resolved truthily and for which `_try_launch_agent` returned an
execution id; (c)–(f) a nudge whose repository cannot be resolved — missing
`source_execution_id`, unknown source execution, or a `repo_url` that is not
a GitHub URL — is never launchable; (g) such a nudge is left untouched by
`_process_pending_nudges` and keeps being returned by `get_pending_nudges`. -/
theorem process_pending_nudges_marks_only_launched :
    (∀ (db : DB) (rows : List NudgeRow) (tryLaunch : String → String → Option Nat)
      (now : Nat),
      processPendingNudges db rows tryLaunch now =
        rows.map (markIf (((getPendingNudges rows 5).filter
          (launchableNudge db tryLaunch)).map (fun m => m.id)) now)) ∧
    (∀ (db : DB) (rows : List NudgeRow) (tryLaunch : String → String → Option Nat)
      (i : Nat),
      i ∈ ((getPendingNudges rows 5).filter (launchableNudge db tryLaunch)).map
        (fun m => m.id) →
      ∃ m, m ∈ getPendingNudges rows 5 ∧ m.id = i ∧
        launchableNudge db tryLaunch m = true) ∧
    (∀ (db : DB) (tryLaunch : String → String → Option Nat) (n : NudgeRow),
      resolveNudgeRepo db n = none → launchableNudge db tryLaunch n = false) ∧
    (∀ (db : DB) (n : NudgeRow), n.source_execution_id = none →
      resolveNudgeRepo db n = none) ∧
    (∀ (db : DB) (n : NudgeRow) (sid : Nat), n.source_execution_id = some sid →
      getExecution db sid = none → resolveNudgeRepo db n = none) ∧
    (∀ url : String, strContains url "github.com" = false →
      extractRepoFromUrl url = none) ∧
    (∀ (db : DB) (rows : List NudgeRow) (tryLaunch : String → String → Option Nat)
      (now : Nat) (n : NudgeRow),
      (∀ m : NudgeRow, m.id = n.id → launchableNudge db tryLaunch m = false) →
      (n ∈ rows → n ∈ processPendingNudges db rows tryLaunch now) ∧
      (n ∈ getPendingNudges rows 5 →
        n ∈ getPendingNudges (processPendingNudges db rows tryLaunch now) 5)) := by
  refine ⟨processPendingNudges_eq_map, ?_, ?_, ?_, ?_, ?_, ?_⟩
  · intro db rows tryLaunch i h
    obtain ⟨m, hmf, hid⟩ := List.mem_map.1 h
    obtain ⟨hmp, hml⟩ := List.mem_filter.1 hmf
    exact ⟨m, hmp, hid, hml⟩
  · intro db tryLaunch n h
    simp [launchableNudge, h]
  · intro db n h
    simp [resolveNudgeRepo, h]
  · intro db n sid hsid hexec
    simp [resolveNudgeRepo, hsid, hexec]
  · intro url h
    simp [extractRepoFromUrl, h]
  · intro db rows tryLaunch now n hno
    have hnotin : n.id ∉ ((getPendingNudges rows 5).filter
        (launchableNudge db tryLaunch)).map (fun m => m.id) := by
      intro hmem
      obtain ⟨m, hmf, hid⟩ := List.mem_map.1 hmem
      obtain ⟨hmp, hml⟩ := List.mem_filter.1 hmf
      rw [hno m hid] at hml
      exact Bool.false_ne_true hml
    have hfix : markIf (((getPendingNudges rows 5).filter
        (launchableNudge db tryLaunch)).map (fun m => m.id)) now n = n := by
      simp [markIf, hnotin]
    constructor
    · intro hmem
      rw [processPendingNudges_eq_map]
      exact List.mem_map.2 ⟨n, hmem, hfix⟩
    · intro hpend
      rw [processPendingNudges_eq_map]
      set marked := ((getPendingNudges rows 5).filter
        (launchableNudge db tryLaunch)).map (fun m => m.id) with hmarkedDef
      unfold getPendingNudges at hpend
      unfold getPendingNudges
      rw [filter_pending_map_markIf]
      have hcomm : rows.filter (fun r => decide (r.processed_at = none) &&
          !(decide (r.id ∈ marked))) =
          (rows.filter (fun r => r.processed_at = none)).filter
            (fun r => !(decide (r.id ∈ marked))) := by
        rw [List.filter_filter]
        apply List.filter_congr
        intro r _
        rw [Bool.and_comm]
      rw [hcomm, ← insertionSort_filter]
      apply mem_take_filter _ _ _ _ hpend
      simp [hnotin]

/-- Witness for C10 at concrete inputs: a nudge with no source execution, in
an empty store, with a launcher that never returns an id, survives processing
untouched and is still returned by `get_pending_nudges`; its repo resolution
is `None`. -/
theorem process_pending_nudges_marks_only_launched_witness :
    ((⟨1, "42", none, 0, 0, none⟩ : NudgeRow) ∈
      processPendingNudges ⟨[]⟩ [⟨1, "42", none, 0, 0, none⟩] (fun _ _ => none) 9) ∧
    ((⟨1, "42", none, 0, 0, none⟩ : NudgeRow) ∈
      getPendingNudges
        (processPendingNudges ⟨[]⟩ [⟨1, "42", none, 0, 0, none⟩] (fun _ _ => none) 9) 5) ∧
    resolveNudgeRepo ⟨[]⟩ ⟨1, "42", none, 0, 0, none⟩ = none := by
  have hno : ∀ m : NudgeRow, m.id = (⟨1, "42", none, 0, 0, none⟩ : NudgeRow).id →
      launchableNudge ⟨[]⟩ (fun _ _ => none) m = false := by
    intro m _
    unfold launchableNudge
    cases resolveNudgeRepo ⟨[]⟩ m with
    | none => rfl
    | some r =>
      by_cases he : r.isEmpty
      · simp [he]
      · simp [he]
  have h7 := process_pending_nudges_marks_only_launched.2.2.2.2.2.2
    ⟨[]⟩ [⟨1, "42", none, 0, 0, none⟩] (fun _ _ => none) 9
    ⟨1, "42", none, 0, 0, none⟩ hno
  have h4 := process_pending_nudges_marks_only_launched.2.2.2.1
    ⟨[]⟩ ⟨1, "42", none, 0, 0, none⟩ rfl
  refine ⟨h7.1 (List.mem_singleton.2 rfl), h7.2 ?_, h4⟩
  rw [show getPendingNudges [⟨1, "42", none, 0, 0, none⟩] 5 =
    [⟨1, "42", none, 0, 0, none⟩] from rfl]
  exact List.mem_singleton.2 rfl

end AgentGrid
